import Mathlib

/-!
Verification of the secure on-line service protocol core.

`src/common/protocol.h` supplies the wire-protocol constants, the command
tags and the response status codes; the server-side logic (storage engine,
request decoding, dispatch) is declared in the repository but its bodies are
stubs, so those operations are modelled here from the specification and each
such definition is marked `Modelled from the spec:` in its doc comment.

Bytes are modelled as natural numbers; a byte blob is a `List Nat`.
All 4-byte lengths on the wire are little-endian, as protocol.h states.
-/

set_option maxRecDepth 8192

/-- Maximum length of a user name (`protocol.h`, `LEN_UNAME`). -/
def LEN_UNAME : Nat := 64

/-- Maximum length of a password (`protocol.h`, `LEN_PASS`). -/
def LEN_PASS : Nat := 128

/-- Maximum length of a user's content field (`protocol.h`, `LEN_CONTENT`). -/
def LEN_CONTENT : Nat := 1048576

/-- Length of an rblock or kblock (`protocol.h`, `LEN_RKBLOCK`). -/
def LEN_RKBLOCK : Nat := 256

/-- Length of an RSA public key (`protocol.h`, `LEN_RSA_PUBKEY`). -/
def LEN_RSA_PUBKEY : Nat := 426

/-- Length of pre-encryption rblock content (`protocol.h`). -/
def LEN_RBLOCK_CONTENT : Nat := 128

/-- Command tag for the KEY request (`protocol.h`, `REQ_KEY`). -/
def REQ_KEY : String := "KEY"

/-- Command tag for the REG request (`protocol.h`, `REQ_REG`). -/
def REQ_REG : String := "REG"

/-- Command tag for the BYE request (`protocol.h`, `REQ_BYE`). -/
def REQ_BYE : String := "BYE"

/-- Command tag for the SAV request (`protocol.h`, `REQ_SAV`). -/
def REQ_SAV : String := "SAV"

/-- Command tag for the SET request (`protocol.h`, `REQ_SET`). -/
def REQ_SET : String := "SET"

/-- Command tag for the GET request (`protocol.h`, `REQ_GET`). -/
def REQ_GET : String := "GET"

/-- Command tag for the ALL request (`protocol.h`, `REQ_ALL`). -/
def REQ_ALL : String := "ALL"

/-- Success response code (`protocol.h`, `RES_OK`). -/
def RES_OK : String := "OK"

/-- Response code: registered user already exists (`protocol.h`). -/
def RES_ERR_USER_EXISTS : String := "ERR_USER_EXISTS"

/-- Response code: bad username or password (`protocol.h`). -/
def RES_ERR_LOGIN : String := "ERR_LOGIN"

/-- Response code: improperly formatted request (`protocol.h`). -/
def RES_ERR_MSG_FMT : String := "ERR_MSG_FMT"

/-- Response code: no data to send back (`protocol.h`). -/
def RES_ERR_NO_DATA : String := "ERR_NO_DATA"

/-- Response code: the user being looked up is invalid (`protocol.h`). -/
def RES_ERR_NO_USER : String := "ERR_NO_USER"

/-- Response code: the requested command does not exist (`protocol.h`). -/
def RES_ERR_INV_CMD : String := "ERR_INVALID_COMMAND"

/-- Response code: the client did not get as much data as expected
(`protocol.h`). -/
def RES_ERR_XMIT : String := "ERR_XMIT"

/-- Response code: client data cannot be decrypted with the provided AES key
(`protocol.h`). -/
def RES_ERR_CRYPTO : String := "ERR_CRYPTO"

/-- The nine response status codes of `protocol.h`, in declaration order. -/
def responseCodes : List String :=
  [RES_OK, RES_ERR_USER_EXISTS, RES_ERR_LOGIN, RES_ERR_MSG_FMT,
   RES_ERR_NO_DATA, RES_ERR_NO_USER, RES_ERR_INV_CMD, RES_ERR_XMIT,
   RES_ERR_CRYPTO]

/-- Encode a natural number as a 4-byte little-endian sequence, as the
`len()` function of `protocol.h` specifies for x86 machines. -/
def le32enc (n : Nat) : List Nat :=
  [n % 256, n / 256 % 256, n / 65536 % 256, n / 16777216 % 256]

/-- Decode a 4-byte little-endian length from its four bytes. -/
def le32dec (b0 b1 b2 b3 : Nat) : Nat :=
  b0 + 256 * b1 + 65536 * b2 + 16777216 * b3

theorem le32enc_length (n : Nat) : (le32enc n).length = 4 := rfl

theorem le32_roundtrip (n : Nat) (h : n < 4294967296) :
    le32dec (n % 256) (n / 256 % 256) (n / 65536 % 256) (n / 16777216 % 256) = n := by
  unfold le32dec
  omega

/-- An account record: password and an optional content blob.  Absent content
(`none`) is distinct from empty content (`some []`), per the data model. -/
structure Account where
  pass : List Nat
  content : Option (List Nat)
deriving DecidableEq, Repr

/-- Modelled from the spec: the UserStore is a mapping from username to
account record; it is kept as an ordered association list so that
`list_usernames` can return insertion (registration) order. -/
abbrev Storage := List (List Nat × Account)

/-- Look up a username in the store, returning its account when present. -/
def lookupAcct : Storage → List Nat → Option Account
  | [], _ => none
  | (v, a) :: rest, u => if v = u then some a else lookupAcct rest u

/-- Modelled from the spec: `create(user, pass) -> Ok | ERR_USER_EXISTS`,
check-and-insert; content starts absent; new accounts are appended so the
store stays in registration order.  The implementing body (server storage)
is absent from the sources. -/
def create (s : Storage) (u p : List Nat) : Except String Storage :=
  match lookupAcct s u with
  | some _ => .error RES_ERR_USER_EXISTS
  | none => .ok (s ++ [(u, ⟨p, none⟩)])

/-- Modelled from the spec: `authenticate(user, pass) -> Ok | ERR_LOGIN`;
lookup followed by password equality; the same error code is returned for a
missing user and for a wrong password. -/
def authenticate (s : Storage) (u p : List Nat) : Except String Unit :=
  match lookupAcct s u with
  | none => .error RES_ERR_LOGIN
  | some a => if a.pass = p then .ok () else .error RES_ERR_LOGIN

/-- Modelled from the spec: `set_content(user, bytes) -> Ok` replaces the
user's content entirely. -/
def set_content : Storage → List Nat → List Nat → Storage
  | [], _, _ => []
  | (v, a) :: rest, u, b =>
      if v = u then (v, { a with content := some b }) :: rest
      else (v, a) :: set_content rest u b

/-- Modelled from the spec:
`get_content(user) -> bytes | ERR_NO_USER | ERR_NO_DATA`. -/
def get_content (s : Storage) (w : List Nat) : Except String (List Nat) :=
  match lookupAcct s w with
  | none => .error RES_ERR_NO_USER
  | some a =>
      match a.content with
      | none => .error RES_ERR_NO_DATA
      | some c => .ok c

/-- Modelled from the spec: `list_usernames()` returns the names in
insertion order, not sorted. -/
def list_usernames (s : Storage) : List (List Nat) :=
  s.map Prod.fst

/-- Join usernames with a newline byte (10) between consecutive names and no
trailing newline, as the ALL response requires. -/
def join_names : List (List Nat) → List Nat
  | [] => []
  | [n] => n
  | n :: rest => n ++ 10 :: join_names rest

/-- A decoded request, one variant per command of the table in the spec.
KEY is absent: it never reaches the dispatcher (see `route_rblock`). -/
inductive Req where
  | reg (u p : List Nat)
  | bye (u p : List Nat)
  | sav (u p : List Nat)
  | set (u p b : List Nat)
  | get (u p w : List Nat)
  | all (u p : List Nat)
deriving DecidableEq, Repr

/-- The command tag carried by a decoded request. -/
def Req.tag : Req → String
  | .reg _ _ => REQ_REG
  | .bye _ _ => REQ_BYE
  | .sav _ _ => REQ_SAV
  | .set _ _ _ => REQ_SET
  | .get _ _ _ => REQ_GET
  | .all _ _ => REQ_ALL

/-- The requesting username of a decoded request. -/
def Req.user : Req → List Nat
  | .reg u _ => u
  | .bye u _ => u
  | .sav u _ => u
  | .set u _ _ => u
  | .get u _ _ => u
  | .all u _ => u

/-- The supplied password of a decoded request. -/
def Req.pass : Req → List Nat
  | .reg _ p => p
  | .bye _ p => p
  | .sav _ p => p
  | .set _ p _ => p
  | .get _ p _ => p
  | .all _ p => p

/-- A response: a status code, optionally followed by a payload blob. -/
structure Resp where
  status : String
  payload : Option (List Nat)
deriving DecidableEq, Repr

/-- Modelled from the spec: the command dispatcher run on one decoded
request.  The body of `serve_client` in the sources is an unimplemented
stub, so the state machine is taken from the spec: authenticate for every
command except REG, execute against the store, and report whether the
server must halt (true only for an authenticated BYE).  The result is
(response, new store, halt flag). -/
def serve_client (s : Storage) : Req → Resp × Storage × Bool
  | .reg u p =>
      match create s u p with
      | .ok s2 => (⟨RES_OK, none⟩, s2, false)
      | .error e => (⟨e, none⟩, s, false)
  | .bye u p =>
      match authenticate s u p with
      | .ok _ => (⟨RES_OK, none⟩, s, true)
      | .error e => (⟨e, none⟩, s, false)
  | .sav u p =>
      match authenticate s u p with
      | .ok _ => (⟨RES_OK, none⟩, s, false)
      | .error e => (⟨e, none⟩, s, false)
  | .set u p b =>
      match authenticate s u p with
      | .ok _ => (⟨RES_OK, none⟩, set_content s u b, false)
      | .error e => (⟨e, none⟩, s, false)
  | .get u p w =>
      match authenticate s u p with
      | .ok _ =>
          match get_content s w with
          | .ok c => (⟨RES_OK, some c⟩, s, false)
          | .error e => (⟨e, none⟩, s, false)
      | .error e => (⟨e, none⟩, s, false)
  | .all u p =>
      match authenticate s u p with
      | .ok _ => (⟨RES_OK, some (join_names (list_usernames s))⟩, s, false)
      | .error e => (⟨e, none⟩, s, false)

/-- Zero-pad a byte sequence to length `n`, the `pad0` of `protocol.h`. -/
def pad0 (s : List Nat) (n : Nat) : List Nat :=
  s ++ List.replicate (n - s.length) 0

/-- The bytes of a command-tag string. -/
def tagBytes (t : String) : List Nat :=
  t.data.map Char.toNat

/-- The literal `"KEY"` zero-padded to `LEN_RKBLOCK`: the kblock of a KEY
request (`protocol.h`, `@kblock pad0("KEY")`). -/
def kblockKEY : List Nat :=
  pad0 (tagBytes REQ_KEY) LEN_RKBLOCK

/-- What the server does with the first `LEN_RKBLOCK` bytes of a
connection: send the raw public key unencrypted and close, or go on to the
RSA-decryption and AES phases. -/
inductive ConnAction where
  | sendPubkey (bytes : List Nat)
  | rsaPhase (block : List Nat)
deriving DecidableEq, Repr

/-- Modelled from the spec: routing of the first block.  If it equals the
zero-padded `"KEY"` literal the server answers with the serialized public
key, unencrypted, and closes — no RSA decryption and no symmetric phase;
every other block proceeds to RSA decryption. -/
def route_rblock (pub : List Nat) (block : List Nat) : ConnAction :=
  if block = kblockKEY then .sendPubkey pub else .rsaPhase block

/-- Read one length-prefixed field with maximum length `m`: a 4-byte
little-endian length, checked against the maximum and the remaining buffer
before the bytes are taken.  `none` models `ERR_MSG_FMT`. -/
def readField (m : Nat) : List Nat → Option (List Nat × List Nat)
  | b0 :: b1 :: b2 :: b3 :: rest =>
      if le32dec b0 b1 b2 b3 ≤ m ∧ le32dec b0 b1 b2 b3 ≤ rest.length then
        some (rest.take (le32dec b0 b1 b2 b3), rest.drop (le32dec b0 b1 b2 b3))
      else none
  | _ => none

/-- Modelled from the spec: walk the decrypted payload extracting one
length-prefixed field per entry of `maxima`, validating each declared
length against its field's maximum and the remaining buffer, and rejecting
trailing unconsumed bytes. -/
def decode_fields : List Nat → List Nat → Option (List (List Nat))
  | [], buf => if buf = [] then some [] else none
  | m :: ms, buf =>
      match readField m buf with
      | none => none
      | some (f, rest) =>
          match decode_fields ms rest with
          | none => none
          | some fs => some (f :: fs)

/-- The per-field maximum lengths of each command's payload, from the
`@ablock` lines of `protocol.h`. -/
def fieldMaxima (t : String) : List Nat :=
  if t = REQ_SET then [LEN_UNAME, LEN_PASS, LEN_CONTENT]
  else if t = REQ_GET then [LEN_UNAME, LEN_PASS, LEN_UNAME]
  else [LEN_UNAME, LEN_PASS]

/-- Modelled from the spec: field decoding as the dispatcher sees it — a
failed decode yields the `ERR_MSG_FMT` error code. -/
def decode_or_err (maxima buf : List Nat) : Except String (List (List Nat)) :=
  match decode_fields maxima buf with
  | none => .error RES_ERR_MSG_FMT
  | some fs => .ok fs

/-- The marker length `0xFFFFFFFF` encoding absent content in a durable
snapshot record. -/
def ABSENT_MARK : Nat := 4294967295

/-- Modelled from the spec: one durable snapshot record,
`len(username).username.len(password).password.len(content)|0xFFFFFFFF-if-absent.content`. -/
def encRecord (u : List Nat) (a : Account) : List Nat :=
  le32enc u.length ++ u ++ le32enc a.pass.length ++ a.pass ++
    (match a.content with
     | none => le32enc ABSENT_MARK
     | some c => le32enc c.length ++ c)

/-- Modelled from the spec: `persist()` writes the ordered sequence of
records of all accounts. -/
def persist : Storage → List Nat
  | [] => []
  | (u, a) :: rest => encRecord u a ++ persist rest

/-- Read one length-prefixed chunk of a snapshot (no per-field maximum;
the declared length must fit the remaining buffer). -/
def readChunk : List Nat → Option (List Nat × List Nat)
  | b0 :: b1 :: b2 :: b3 :: rest =>
      if le32dec b0 b1 b2 b3 ≤ rest.length then
        some (rest.take (le32dec b0 b1 b2 b3), rest.drop (le32dec b0 b1 b2 b3))
      else none
  | _ => none

/-- Read the content part of a snapshot record: the `0xFFFFFFFF` marker
denotes absent content, any other length prefixes the content bytes. -/
def readContent : List Nat → Option (Option (List Nat) × List Nat)
  | b0 :: b1 :: b2 :: b3 :: rest =>
      if le32dec b0 b1 b2 b3 = ABSENT_MARK then some (none, rest)
      else if le32dec b0 b1 b2 b3 ≤ rest.length then
        some (some (rest.take (le32dec b0 b1 b2 b3)), rest.drop (le32dec b0 b1 b2 b3))
      else none
  | _ => none

/-- Parse snapshot records until the buffer is exhausted; the fuel bounds
the number of records and is at least the buffer length at the top level. -/
def loadAux : Nat → List Nat → Option Storage
  | 0, buf => if buf = [] then some [] else none
  | fuel + 1, buf =>
      if buf = [] then some []
      else
        match readChunk buf with
        | none => none
        | some (u, r1) =>
            match readChunk r1 with
            | none => none
            | some (p, r2) =>
                match readContent r2 with
                | none => none
                | some (c, r3) =>
                    match loadAux fuel r3 with
                    | none => none
                    | some s => some ((u, ⟨p, c⟩) :: s)

/-- Modelled from the spec: `load()` builds the initial store; absence of a
prior snapshot (`none`) yields an empty store, not an error. -/
def load : Option (List Nat) → Option Storage
  | none => some []
  | some buf => loadAux buf.length buf

/-- C10: the nine response status-code constants of `protocol.h` are pairwise
distinct and none is a prefix of another, so a response plaintext that begins
with a status code determines the status unambiguously. -/
theorem responseCodes_prefix_free :
    responseCodes.Pairwise
      (fun a b => a ≠ b ∧ ¬ a.data.isPrefixOf b.data ∧ ¬ b.data.isPrefixOf a.data) := by
  decide

theorem authenticate_ok_iff (s : Storage) (u p : List Nat) :
    authenticate s u p = .ok () ↔ ∃ a, lookupAcct s u = some a ∧ a.pass = p := by
  unfold authenticate
  cases h : lookupAcct s u with
  | none => simp
  | some a =>
      by_cases hp : a.pass = p
      · simp [hp]
      · simp [hp]

theorem lookupAcct_mem (s : Storage) (u : List Nat) (a : Account)
    (h : lookupAcct s u = some a) : u ∈ list_usernames s := by
  induction s with
  | nil => simp [lookupAcct] at h
  | cons e rest ih =>
      obtain ⟨v, b⟩ := e
      by_cases hv : v = u
      · subst hv
        simp [list_usernames]
      · simp only [lookupAcct, if_neg hv] at h
        simpa [list_usernames] using Or.inr (by simpa [list_usernames] using ih h)

theorem lookupAcct_set_content_self (s : Storage) (u b : List Nat) :
    lookupAcct (set_content s u b) u =
      (lookupAcct s u).map (fun a => { a with content := some b }) := by
  induction s with
  | nil => simp [set_content, lookupAcct]
  | cons e rest ih =>
      obtain ⟨v, a⟩ := e
      by_cases hv : v = u
      · simp [set_content, lookupAcct, hv]
      · simp [set_content, lookupAcct, hv, ih]

theorem lookupAcct_append_self (s : Storage) (u : List Nat) (a : Account)
    (h : lookupAcct s u = none) : lookupAcct (s ++ [(u, a)]) u = some a := by
  induction s with
  | nil => simp [lookupAcct]
  | cons e rest ih =>
      obtain ⟨v, b⟩ := e
      by_cases hv : v = u
      · simp [lookupAcct, hv] at h
      · simp only [List.cons_append, lookupAcct, if_neg hv] at h ⊢
        exact ih h

/-- C1: an authenticated SET of blob `b` (with `|b| ≤ LEN_CONTENT`) followed
by an authenticated GET of the same user returns exactly `b`, byte for
byte. -/
theorem set_then_get_roundtrip (s : Storage) (u p b : List Nat) (a : Account)
    (hu : lookupAcct s u = some a) (hp : a.pass = p)
    (hb : b.length ≤ LEN_CONTENT) :
    (serve_client s (Req.set u p b)).1 = ⟨RES_OK, none⟩ ∧
    (serve_client ((serve_client s (Req.set u p b)).2.1)
        (Req.get u p u)).1 = ⟨RES_OK, some b⟩ := by
  have hauth : authenticate s u p = .ok () :=
    (authenticate_ok_iff s u p).2 ⟨a, hu, hp⟩
  have hstep : serve_client s (Req.set u p b) =
      (⟨RES_OK, none⟩, set_content s u b, false) := by
    simp [serve_client, hauth]
  have hlook : lookupAcct (set_content s u b) u =
      some { a with content := some b } := by
    rw [lookupAcct_set_content_self, hu]
    rfl
  have hauth2 : authenticate (set_content s u b) u p = .ok () :=
    (authenticate_ok_iff (set_content s u b) u p).2 ⟨_, hlook, hp⟩
  have hget : get_content (set_content s u b) u = .ok b := by
    simp [get_content, hlook]
  refine ⟨by rw [hstep], ?_⟩
  rw [hstep]
  simp [serve_client, hauth2, hget]

/-- C1 witness at a concrete store. -/
theorem set_then_get_roundtrip_witness :
    (serve_client [([97], ⟨[1], none⟩)] (Req.set [97] [1] [5, 6])).1 =
      ⟨RES_OK, none⟩ ∧
    (serve_client ((serve_client [([97], ⟨[1], none⟩)]
        (Req.set [97] [1] [5, 6])).2.1) (Req.get [97] [1] [97])).1 =
      ⟨RES_OK, some [5, 6]⟩ :=
  set_then_get_roundtrip [([97], ⟨[1], none⟩)] [97] [1] [5, 6] ⟨[1], none⟩
    rfl rfl (by decide)

/-- C3: an authenticated GET returns ERR_NO_USER when the target account
does not exist, ERR_NO_DATA when the account exists with absent content,
and an empty-blob success when the stored content is the zero-length blob:
absent and empty content are distinct states. -/
theorem get_target_cases (s : Storage) (u p w : List Nat)
    (hauth : authenticate s u p = Except.ok ()) :
    (lookupAcct s w = none →
      (serve_client s (Req.get u p w)).1 = ⟨RES_ERR_NO_USER, none⟩) ∧
    (∀ a, lookupAcct s w = some a → a.content = none →
      (serve_client s (Req.get u p w)).1 = ⟨RES_ERR_NO_DATA, none⟩) ∧
    (∀ a, lookupAcct s w = some a → a.content = some [] →
      (serve_client s (Req.get u p w)).1 = ⟨RES_OK, some []⟩) := by
  refine ⟨fun hw => ?_, fun a ha hc => ?_, fun a ha hc => ?_⟩
  · simp [serve_client, hauth, get_content, hw]
  · simp [serve_client, hauth, get_content, ha, hc]
  · simp [serve_client, hauth, get_content, ha, hc]

/-- C3 witness at a concrete store. -/
theorem get_target_cases_witness :
    (serve_client [([97], ⟨[1], none⟩)] (Req.get [97] [1] [98])).1 =
      ⟨RES_ERR_NO_USER, none⟩ :=
  (get_target_cases [([97], ⟨[1], none⟩)] [97] [1] [98] rfl).1 rfl

/-- C4: REG of a fresh (user, pass) within the length bounds creates the
account with absent content, after which authentication succeeds; REG of an
existing username yields ERR_USER_EXISTS and leaves the store unchanged, so
usernames stay unique. -/
theorem reg_creates_unique (s : Storage) (u p : List Nat)
    (hu : lookupAcct s u = none) (hul : u.length ≤ LEN_UNAME)
    (hpl : p.length ≤ LEN_PASS) :
    serve_client s (Req.reg u p) =
      (⟨RES_OK, none⟩, s ++ [(u, ⟨p, none⟩)], false) ∧
    lookupAcct (s ++ [(u, ⟨p, none⟩)]) u = some ⟨p, none⟩ ∧
    authenticate (s ++ [(u, ⟨p, none⟩)]) u p = Except.ok () ∧
    ∀ (s2 : Storage) (a : Account), lookupAcct s2 u = some a → ∀ q,
      serve_client s2 (Req.reg u q) = (⟨RES_ERR_USER_EXISTS, none⟩, s2, false) := by
  have hl : lookupAcct (s ++ [(u, ⟨p, none⟩)]) u = some ⟨p, none⟩ :=
    lookupAcct_append_self s u ⟨p, none⟩ hu
  refine ⟨?_, hl, ?_, ?_⟩
  · simp [serve_client, create, hu]
  · unfold authenticate
    rw [hl]
    simp
  · intro s2 a ha q
    simp [serve_client, create, ha]

/-- C4 witness at a concrete store. -/
theorem reg_creates_unique_witness :
    serve_client [] (Req.reg [97] [1]) =
      (⟨RES_OK, none⟩, [([97], ⟨[1], none⟩)], false) :=
  (reg_creates_unique [] [97] [1] rfl (by decide) (by decide)).1

/-- C5: for every dispatched command other than REG, both authentication
failure cases — unknown username and wrong password — produce exactly the
ERR_LOGIN response, with the store unchanged and no halt, so the response
does not reveal which check failed. -/
theorem auth_fail_err_login (s : Storage) (r : Req) (hr : r.tag ≠ REQ_REG)
    (hfail : lookupAcct s r.user = none ∨
      ∃ a, lookupAcct s r.user = some a ∧ a.pass ≠ r.pass) :
    authenticate s r.user r.pass = .error RES_ERR_LOGIN ∧
    (serve_client s r).1 = ⟨RES_ERR_LOGIN, none⟩ ∧
    (serve_client s r).2.1 = s ∧ (serve_client s r).2.2 = false := by
  have hfa : authenticate s r.user r.pass = .error RES_ERR_LOGIN := by
    unfold authenticate
    rcases hfail with h | ⟨a, ha, hp⟩
    · rw [h]
    · rw [ha]
      simp [hp]
  refine ⟨hfa, ?_⟩
  cases r with
  | reg u p => exact absurd rfl hr
  | bye u p =>
      simp only [Req.user, Req.pass] at hfa
      simp [serve_client, hfa]
  | sav u p =>
      simp only [Req.user, Req.pass] at hfa
      simp [serve_client, hfa]
  | set u p b =>
      simp only [Req.user, Req.pass] at hfa
      simp [serve_client, hfa]
  | get u p w =>
      simp only [Req.user, Req.pass] at hfa
      simp [serve_client, hfa]
  | all u p =>
      simp only [Req.user, Req.pass] at hfa
      simp [serve_client, hfa]

/-- C5 witness: an unknown user on an empty store. -/
theorem auth_fail_err_login_witness :
    authenticate [] (Req.bye [97] [1]).user (Req.bye [97] [1]).pass =
      .error RES_ERR_LOGIN ∧
    (serve_client [] (Req.bye [97] [1])).1 = ⟨RES_ERR_LOGIN, none⟩ ∧
    (serve_client [] (Req.bye [97] [1])).2.1 = [] ∧
    (serve_client [] (Req.bye [97] [1])).2.2 = false :=
  auth_fail_err_login [] (Req.bye [97] [1]) (by decide) (Or.inl rfl)

/-- C6: the dispatcher's halt signal is true exactly when the request is a
BYE whose authentication succeeded; every other command, and BYE with
failed authentication, returns false. -/
theorem halt_iff_authenticated_bye (s : Storage) (r : Req) :
    (serve_client s r).2.2 = true ↔
      ∃ u p, r = Req.bye u p ∧ authenticate s u p = Except.ok () := by
  cases r with
  | reg u p =>
      cases h : create s u p <;> simp [serve_client, h]
  | bye u p =>
      cases h : authenticate s u p with
      | ok v =>
          cases v
          simp only [serve_client, h]
          simp only [true_iff]
          exact ⟨u, p, rfl, h⟩
      | error e => simp [serve_client, h]
  | sav u p =>
      cases h : authenticate s u p <;> simp [serve_client, h]
  | set u p b =>
      cases h : authenticate s u p <;> simp [serve_client, h]
  | get u p w =>
      cases h : authenticate s u p with
      | ok v =>
          cases h2 : get_content s w <;> simp [serve_client, h, h2]
      | error e => simp [serve_client, h]
  | all u p =>
      cases h : authenticate s u p <;> simp [serve_client, h]

theorem join_names_append (ns : List (List Nat)) (n : List Nat) :
    join_names (ns ++ [n]) = if ns = [] then n else join_names ns ++ 10 :: n := by
  induction ns with
  | nil => simp [join_names]
  | cons m ms ih =>
      cases ms with
      | nil => simp [join_names]
      | cons k ks =>
          have ih2 : join_names (k :: (ks ++ [n])) =
              join_names (k :: ks) ++ 10 :: n := by
            rw [← List.cons_append, ih]
            simp
          have h1 : (m :: k :: ks) ++ [n] = m :: k :: (ks ++ [n]) := by simp
          rw [h1]
          show (m ++ 10 :: join_names (k :: (ks ++ [n]))) = _
          rw [ih2]
          simp [join_names]

/-- C7: the authenticated ALL response is the store's usernames joined by
newline bytes in insertion (registration) order with no sorting and no
trailing newline, and it contains the requesting user's own name. -/
theorem all_lists_users (s : Storage) (u p : List Nat)
    (hauth : authenticate s u p = Except.ok ()) :
    serve_client s (Req.all u p) =
      (⟨RES_OK, some (join_names (list_usernames s))⟩, s, false) ∧
    u ∈ list_usernames s ∧
    (∀ (s2 : Storage) (u2 p2 : List Nat), lookupAcct s2 u2 = none →
      create s2 u2 p2 = .ok (s2 ++ [(u2, ⟨p2, none⟩)]) ∧
      list_usernames (s2 ++ [(u2, ⟨p2, none⟩)]) = list_usernames s2 ++ [u2]) ∧
    (∀ (ns : List (List Nat)) (n : List Nat),
      join_names (ns ++ [n]) = if ns = [] then n else join_names ns ++ 10 :: n) := by
  obtain ⟨a, ha, -⟩ := (authenticate_ok_iff s u p).1 hauth
  refine ⟨by simp [serve_client, hauth], lookupAcct_mem s u a ha, ?_, join_names_append⟩
  intro s2 u2 p2 h2
  constructor
  · simp [create, h2]
  · simp [list_usernames]

theorem readField_some (m : Nat) (buf f rest : List Nat)
    (h : readField m buf = some (f, rest)) :
    f.length ≤ m ∧ buf.length = 4 + f.length + rest.length := by
  cases buf with
  | nil => simp [readField] at h
  | cons b0 t0 =>
  cases t0 with
  | nil => simp [readField] at h
  | cons b1 t1 =>
  cases t1 with
  | nil => simp [readField] at h
  | cons b2 t2 =>
  cases t2 with
  | nil => simp [readField] at h
  | cons b3 r =>
      simp only [readField] at h
      split at h
      case isTrue hc =>
        obtain ⟨hc1, hc2⟩ := hc
        simp only [Option.some.injEq, Prod.mk.injEq] at h
        obtain ⟨hf, hr⟩ := h
        subst hf
        subst hr
        refine ⟨?_, ?_⟩
        · simp only [List.length_take]
          omega
        · simp only [List.length_cons, List.length_take, List.length_drop]
          omega
      case isFalse hc => exact absurd h (by simp)

/-- C2: a length-prefixed field whose declared length exceeds the remaining
buffer or its field's maximum makes decoding yield the ERR_MSG_FMT error, as
does a leftover trailing byte; and a successful decode consumes the buffer
exactly — every field obeys its maximum and the lengths account for every
byte, so no read past the end of the buffer occurs. -/
theorem decode_msg_fmt_safe (maxima buf : List Nat) :
    (∀ m ms b0 b1 b2 b3 rest, maxima = m :: ms →
      buf = b0 :: b1 :: b2 :: b3 :: rest →
      (m < le32dec b0 b1 b2 b3 ∨ rest.length < le32dec b0 b1 b2 b3) →
      decode_or_err maxima buf = .error RES_ERR_MSG_FMT) ∧
    (maxima = [] → buf ≠ [] →
      decode_or_err maxima buf = .error RES_ERR_MSG_FMT) ∧
    (∀ fields, decode_fields maxima buf = some fields →
      List.Forall₂ (fun f m => f.length ≤ m) fields maxima ∧
      (fields.map List.length).sum + 4 * maxima.length = buf.length) := by
  refine ⟨?_, ?_, ?_⟩
  · rintro m ms b0 b1 b2 b3 rest rfl rfl hbad
    have hcond : ¬(le32dec b0 b1 b2 b3 ≤ m ∧
        le32dec b0 b1 b2 b3 ≤ rest.length) := by
      rcases hbad with h | h
      · exact fun hc => Nat.not_le.mpr h hc.1
      · exact fun hc => Nat.not_le.mpr h hc.2
    have hnone : readField m (b0 :: b1 :: b2 :: b3 :: rest) = none := by
      simp only [readField]
      rw [if_neg hcond]
    simp [decode_or_err, decode_fields, hnone]
  · rintro rfl hne
    simp [decode_or_err, decode_fields, hne]
  · intro fields h
    induction maxima generalizing buf fields with
    | nil =>
        by_cases hb : buf = []
        · subst hb
          have h2 : fields = [] := by
            have h3 := h.symm
            simpa [decode_fields] using h3
          subst h2
          simp
        · simp [decode_fields, hb] at h
    | cons m ms ih =>
        cases hr : readField m buf with
        | none => simp [decode_fields, hr] at h
        | some pr =>
            obtain ⟨f, rest⟩ := pr
            simp only [decode_fields, hr] at h
            cases hd : decode_fields ms rest with
            | none =>
                rw [hd] at h
                simp at h
            | some fs =>
                rw [hd] at h
                simp only [Option.some.injEq] at h
                subst h
                obtain ⟨hfa, hsum⟩ := ih rest fs hd
                obtain ⟨hfm, hlen⟩ := readField_some m buf f rest hr
                refine ⟨List.Forall₂.cons hfm hfa, ?_⟩
                simp only [List.map_cons, List.sum_cons, List.length_cons]
                omega

/-- C2 witness: a field declaring 5 bytes with an empty remainder. -/
theorem decode_msg_fmt_safe_witness :
    decode_or_err [64] [5, 0, 0, 0] = .error RES_ERR_MSG_FMT :=
  (decode_msg_fmt_safe [64] [5, 0, 0, 0]).1 64 [] 5 0 0 0 [] rfl rfl
    (by decide)

/-- C9: a first block equal to the literal `"KEY"` zero-padded to
`LEN_RKBLOCK` is answered with the raw serialized public key of
`LEN_RSA_PUBKEY = 426` bytes, unencrypted, skipping the RSA and AES phases;
every other block goes to the RSA phase, so KEY alone has this behavior. -/
theorem key_request_routing (pub block : List Nat)
    (hpub : pub.length = LEN_RSA_PUBKEY) :
    (route_rblock pub block = ConnAction.sendPubkey pub ↔ block = kblockKEY) ∧
    (∀ bs, route_rblock pub block = ConnAction.sendPubkey bs →
      block = kblockKEY ∧ bs = pub ∧ bs.length = 426) ∧
    (block ≠ kblockKEY → route_rblock pub block = ConnAction.rsaPhase block) ∧
    kblockKEY = tagBytes REQ_KEY ++ List.replicate 253 0 ∧
    kblockKEY.length = LEN_RKBLOCK := by
  have hk : kblockKEY = tagBytes REQ_KEY ++ List.replicate 253 0 := rfl
  have htag : (tagBytes REQ_KEY).length = 3 := rfl
  have hklen : kblockKEY.length = LEN_RKBLOCK := by
    simp [hk, htag, LEN_RKBLOCK]
  by_cases hb : block = kblockKEY
  · subst hb
    have hroute : route_rblock pub kblockKEY = ConnAction.sendPubkey pub := by
      unfold route_rblock
      rw [if_pos rfl]
    refine ⟨⟨fun _ => rfl, fun _ => hroute⟩, ?_, fun hc => absurd rfl hc, hk, hklen⟩
    intro bs hbs
    rw [hroute] at hbs
    injection hbs with h
    subst h
    exact ⟨rfl, rfl, hpub⟩
  · have hroute : route_rblock pub block = ConnAction.rsaPhase block := by
      unfold route_rblock
      rw [if_neg hb]
    refine ⟨?_, ?_, fun _ => hroute, hk, hklen⟩
    · rw [hroute]
      exact ⟨fun h => ConnAction.noConfusion h, fun h => absurd h hb⟩
    · intro bs hbs
      rw [hroute] at hbs
      exact ConnAction.noConfusion hbs

/-- C9 witness: the padded KEY block against a 426-byte public key. -/
theorem key_request_routing_witness :
    route_rblock (List.replicate 426 0) kblockKEY =
      ConnAction.sendPubkey (List.replicate 426 0) :=
  ((key_request_routing (List.replicate 426 0) kblockKEY
    (by simp [LEN_RSA_PUBKEY])).1).2 rfl

/-- C7 witness at a concrete two-user store. -/
theorem all_lists_users_witness :
    serve_client [([97], ⟨[1], none⟩), ([98], ⟨[2], none⟩)] (Req.all [98] [2]) =
      (⟨RES_OK, some (join_names (list_usernames
        [([97], ⟨[1], none⟩), ([98], ⟨[2], none⟩)]))⟩,
       [([97], ⟨[1], none⟩), ([98], ⟨[2], none⟩)], false) :=
  (all_lists_users [([97], ⟨[1], none⟩), ([98], ⟨[2], none⟩)] [98] [2] rfl).1

theorem readChunk_encode (x rest : List Nat) (h : x.length < 4294967296) :
    readChunk (le32enc x.length ++ (x ++ rest)) = some (x, rest) := by
  simp only [le32enc, List.cons_append, List.nil_append, readChunk]
  rw [le32_roundtrip x.length h]
  rw [if_pos (by simp)]
  rw [List.take_left, List.drop_left]

theorem readContent_absent (rest : List Nat) :
    readContent (le32enc ABSENT_MARK ++ rest) = some (none, rest) := by
  simp only [le32enc, List.cons_append, List.nil_append, readContent]
  rw [le32_roundtrip ABSENT_MARK (by norm_num [ABSENT_MARK])]
  rw [if_pos rfl]

theorem readContent_present (c rest : List Nat) (hc : c.length ≤ LEN_CONTENT) :
    readContent (le32enc c.length ++ (c ++ rest)) = some (some c, rest) := by
  have hlt : LEN_CONTENT < ABSENT_MARK := by norm_num [LEN_CONTENT, ABSENT_MARK]
  have h32 : c.length < 4294967296 := by
    have : ABSENT_MARK < 4294967296 := by norm_num [ABSENT_MARK]
    omega
  simp only [le32enc, List.cons_append, List.nil_append, readContent]
  rw [le32_roundtrip c.length h32]
  rw [if_neg (by omega)]
  rw [if_pos (by simp)]
  rw [List.take_left, List.drop_left]

theorem encRecord_ne_nil (u : List Nat) (a : Account) : encRecord u a ≠ [] := by
  simp [encRecord, le32enc]

theorem persist_length (s : Storage) : s.length ≤ (persist s).length := by
  induction s with
  | nil => simp [persist]
  | cons e rest ih =>
      obtain ⟨u, a⟩ := e
      have h1 : 1 ≤ (encRecord u a).length := by
        cases he : encRecord u a with
        | nil => exact absurd he (encRecord_ne_nil u a)
        | cons x xs => simp
      simp only [persist, List.length_append, List.length_cons]
      omega

theorem loadAux_record (fuel : Nat) (u pw : List Nat) (c : Option (List Nat))
    (tail : List Nat) (hu : u.length < 4294967296)
    (hp : pw.length < 4294967296)
    (hc : ∀ x, c = some x → x.length ≤ LEN_CONTENT) :
    loadAux (fuel + 1) (encRecord u ⟨pw, c⟩ ++ tail) =
      match loadAux fuel tail with
      | none => none
      | some s => some ((u, ⟨pw, c⟩) :: s) := by
  have hne : encRecord u ⟨pw, c⟩ ++ tail ≠ [] := by
    intro h
    exact encRecord_ne_nil u ⟨pw, c⟩ (List.append_eq_nil.1 h).1
  cases c with
  | none =>
      have h1 : encRecord u ⟨pw, none⟩ ++ tail =
          le32enc u.length ++ (u ++ (le32enc pw.length ++ (pw ++
            (le32enc ABSENT_MARK ++ tail)))) := by
        simp [encRecord, List.append_assoc]
      have e1 := readChunk_encode u
        (le32enc pw.length ++ (pw ++ (le32enc ABSENT_MARK ++ tail))) hu
      have e2 := readChunk_encode pw (le32enc ABSENT_MARK ++ tail) hp
      have e3 := readContent_absent tail
      rw [h1] at hne ⊢
      simp only [loadAux]
      rw [if_neg hne]
      simp only [e1, e2, e3]
  | some x =>
      have hcx : x.length ≤ LEN_CONTENT := hc x rfl
      have h1 : encRecord u ⟨pw, some x⟩ ++ tail =
          le32enc u.length ++ (u ++ (le32enc pw.length ++ (pw ++
            (le32enc x.length ++ (x ++ tail))))) := by
        simp [encRecord, List.append_assoc]
      have e1 := readChunk_encode u
        (le32enc pw.length ++ (pw ++ (le32enc x.length ++ (x ++ tail)))) hu
      have e2 := readChunk_encode pw (le32enc x.length ++ (x ++ tail)) hp
      have e3 := readContent_present x tail hcx
      rw [h1] at hne ⊢
      simp only [loadAux]
      rw [if_neg hne]
      simp only [e1, e2, e3]

theorem loadAux_persist (s : Storage) :
    ∀ fuel, s.length ≤ fuel →
    (∀ e ∈ s, e.1.length ≤ LEN_UNAME ∧ e.2.pass.length ≤ LEN_PASS ∧
      (e.2.content.getD []).length ≤ LEN_CONTENT) →
    loadAux fuel (persist s) = some s := by
  induction s with
  | nil =>
      intro fuel _ _
      cases fuel <;> simp [persist, loadAux]
  | cons e rest ih =>
      intro fuel hfuel hok
      obtain ⟨u, a⟩ := e
      obtain ⟨pw, c⟩ := a
      cases fuel with
      | zero => simp at hfuel
      | succ f =>
          obtain ⟨hu1, hp1, hc1⟩ := hok (u, ⟨pw, c⟩) (by simp)
          dsimp only at hu1 hp1 hc1
          have hu32 : u.length < 4294967296 := by
            have h64 : LEN_UNAME < 4294967296 := by norm_num [LEN_UNAME]
            omega
          have hp32 : pw.length < 4294967296 := by
            have h128 : LEN_PASS < 4294967296 := by norm_num [LEN_PASS]
            omega
          have hcx : ∀ x, c = some x → x.length ≤ LEN_CONTENT := by
            intro x hx
            rw [hx] at hc1
            simpa using hc1
          have hrec := loadAux_record f u pw c (persist rest) hu32 hp32 hcx
          have hpersist : persist ((u, ⟨pw, c⟩) :: rest) =
              encRecord u ⟨pw, c⟩ ++ persist rest := rfl
          have hfr : rest.length ≤ f := by
            simp only [List.length_cons] at hfuel
            omega
          rw [hpersist, hrec,
            ih f hfr (fun e2 he2 => hok e2 (List.mem_cons_of_mem _ he2))]

/-- C8: persisting the store and loading the resulting snapshot reproduces
the same account set — usernames, passwords, contents, with the absent
state encoded by the 0xFFFFFFFF marker kept distinct from present content —
and loading with no prior snapshot yields the empty store, not an error. -/
theorem persist_load_roundtrip (s : Storage)
    (hok : ∀ e ∈ s, e.1.length ≤ LEN_UNAME ∧ e.2.pass.length ≤ LEN_PASS ∧
      (e.2.content.getD []).length ≤ LEN_CONTENT) :
    load (some (persist s)) = some s ∧ load none = some [] := by
  refine ⟨?_, rfl⟩
  show loadAux (persist s).length (persist s) = some s
  exact loadAux_persist s (persist s).length (persist_length s) hok

/-- C8 witness on a two-account store with one absent content. -/
theorem persist_load_roundtrip_witness :
    load (some (persist [([97], ⟨[1], some [2]⟩), ([98], ⟨[3], none⟩)])) =
      some [([97], ⟨[1], some [2]⟩), ([98], ⟨[3], none⟩)] ∧
    load none = some [] :=
  persist_load_roundtrip [([97], ⟨[1], some [2]⟩), ([98], ⟨[3], none⟩)]
    (by decide)
